import Mathlib

/-!
Verification development for the que-morfamos-scraper incremental crawl and
synchronization engine. Python sources are shallowly embedded: dict-shaped
rows become structures, module-level effects (database writes, the Selenium
driver, the DeepSeek API, wall-clock time, random shuffles) become explicit
parameters or state threading, machine arithmetic is Nat with explicit mod,
and Python str.lower/str.upper are modelled by ASCII case mapping.
-/

namespace QueMorfamos

/-! ### Generic string helpers shared by several embedded functions -/

/-- Boolean prefix test on character lists. -/
def isPrefixL : List Char → List Char → Bool
  | [], _ => true
  | _ :: _, [] => false
  | a :: as, b :: bs => a == b && isPrefixL as bs

/-- Boolean substring test on character lists, models the Python `in` operator
on strings. -/
def containsL (needle : List Char) : List Char → Bool
  | [] => needle.isEmpty
  | h :: t => isPrefixL needle (h :: t) || containsL needle t

/-- Substring test on strings: `contiene sub s` models Python `sub in s`. -/
def contiene (sub s : String) : Bool := containsL sub.data s.data

/-- Prefix test on strings: `empiezaCon pre s` models Python
`s.startswith(pre)`. -/
def empiezaCon (pre s : String) : Bool := isPrefixL pre.data s.data

/-- Models Python `str.lower` (ASCII case mapping). -/
def pyLower (s : String) : String := String.mk (s.data.map Char.toLower)

/-- Models Python `str.upper` (ASCII case mapping). -/
def pyUpper (s : String) : String := String.mk (s.data.map Char.toUpper)

/-- Models Python `str.strip` with no arguments: remove leading and trailing
whitespace. -/
def pyStrip (s : String) : String :=
  String.mk ((((s.data.dropWhile Char.isWhitespace).reverse).dropWhile
    Char.isWhitespace).reverse)

/-- Models Python slicing `s[:n]`: the first `n` characters. -/
def pyTake (n : Nat) (s : String) : String := String.mk (s.data.take n)

/-- Run collapser with a look-behind flag: while inside a whitespace run only
the first character was emitted (as a space). -/
def colapsaEspaciosAux (dentro : Bool) : List Char → List Char
  | [] => []
  | a :: rest =>
    if a.isWhitespace then
      if dentro then colapsaEspaciosAux true rest
      else ' ' :: colapsaEspaciosAux true rest
    else a :: colapsaEspaciosAux false rest

/-- Models `re.sub(r'\s+', ' ', s)`: every whitespace run becomes one space. -/
def colapsaEspacios (l : List Char) : List Char := colapsaEspaciosAux false l

/-- Models Python `' '.join(s.split())`: whitespace runs collapse to single
spaces and boundary whitespace is dropped. -/
def normSpace (s : String) : String := pyStrip (String.mk (colapsaEspacios s.data))

/-- Value of a maximal decimal-digit run, used for `re.search(r'(\d+)')`. -/
def digitsToNat (ds : List Char) : Nat :=
  ds.foldl (fun acc c => acc * 10 + (c.toNat - 48)) 0

/-- First maximal digit run in the text, as a number: models
`re.search(r'(\d+)', s)` followed by `int(...)`. -/
def primeraCifra : List Char → Option Nat
  | [] => none
  | c :: cs =>
    if c.isDigit then some (digitsToNat (c :: cs.takeWhile Char.isDigit))
    else primeraCifra cs

/-! ### scraping_utils.parsear_fecha_relativa

Wall-clock time is modelled as `ahora : Int` in minutes; `timedelta`
subtraction becomes integer subtraction of the unit size in minutes, and
`strftime('%Y-%m-%d')` is an abstract formatting collaborator `fmt`. -/

/-- Word-to-number table `numeros` of `parsear_fecha_relativa`, in the source
insertion order (Python dict iteration order). -/
def numeros : List (String × Nat) :=
  [("un", 1), ("una", 1), ("uno", 1),
   ("dos", 2), ("tres", 3), ("cuatro", 4), ("cinco", 5),
   ("seis", 6), ("siete", 7), ("ocho", 8), ("nueve", 9), ("diez", 10),
   ("once", 11), ("doce", 12)]

/-- Embedding of `scraping_utils.parsear_fecha_relativa`. The input is
`Option String` so that Python `None` is representable; the result is
`(fecha_absoluta_str, fecha_original)`. -/
def parsear_fecha_relativa (fmt : Int → String) (ahora : Int)
    (fecha_texto : Option String) : Option String × Option String :=
  match fecha_texto with
  | none => (none, none)
  | some t =>
    if t = "" then (none, none)
    else
      let fecha_lower := pyStrip (pyLower t)
      let cantidad : Nat :=
        match primeraCifra fecha_lower.data with
        | some n => n
        | none =>
          match numeros.find? (fun p => contiene p.1 fecha_lower) with
          | some p => p.2
          | none => 1
      let fecha_calculada : Option Int :=
        if contiene "día" fecha_lower || contiene "dia" fecha_lower then
          some (ahora - cantidad * 1440)
        else if contiene "semana" fecha_lower then
          some (ahora - cantidad * 10080)
        else if contiene "mes" fecha_lower || contiene "meses" fecha_lower then
          some (ahora - cantidad * 43200)
        else if contiene "año" fecha_lower || contiene "años" fecha_lower then
          some (ahora - cantidad * 525600)
        else if contiene "hora" fecha_lower then
          some (ahora - cantidad * 60)
        else if contiene "minuto" fecha_lower then
          some (ahora - cantidad * 1)
        else none
      match fecha_calculada with
      | some f => (some (fmt f), some t)
      | none => (none, some t)

/-- The time-unit substrings recognized by `parsear_fecha_relativa`. -/
def unidadesTiempo : List String :=
  ["día", "dia", "semana", "mes", "meses", "año", "años", "hora", "minuto"]

/-! ### deepseek_utils.limpiar_texto -/

/-- Run collapser for one character with a look-behind flag: while inside a
run of `c` only its first occurrence was emitted. -/
def colapsaRepetidoAux (c : Char) (dentro : Bool) : List Char → List Char
  | [] => []
  | a :: rest =>
    if a == c then
      if dentro then colapsaRepetidoAux c true rest
      else c :: colapsaRepetidoAux c true rest
    else a :: colapsaRepetidoAux c false rest

/-- Models `re.sub(c + '{2,}', c, s)`: every run of the character `c` is
collapsed to a single occurrence. -/
def colapsaRepetido (c : Char) (l : List Char) : List Char :=
  colapsaRepetidoAux c false l

/-- Long-run collapser: `saltando = some c` means a collapsed run of `c` is
still being consumed. A new run of three or more copies of a non-newline
character keeps only its first copy; shorter runs pass through. -/
def colapsaLargosAux (saltando : Option Char) : List Char → List Char
  | [] => []
  | a :: rest =>
    match saltando with
    | some c =>
      if a == c then colapsaLargosAux (some c) rest
      else
        if a != '\n' && 2 ≤ (rest.takeWhile (· == a)).length then
          a :: colapsaLargosAux (some a) rest
        else a :: colapsaLargosAux none rest
    | none =>
      if a != '\n' && 2 ≤ (rest.takeWhile (· == a)).length then
        a :: colapsaLargosAux (some a) rest
      else a :: colapsaLargosAux none rest

/-- Models `re.sub(r'(.)\1{2,}', r'\1', s)`: a run of three or more copies of
a character is collapsed to one copy; runs of one or two are kept. Python `.`
does not match a newline, so newline runs are untouched. -/
def colapsaLargos (l : List Char) : List Char := colapsaLargosAux none l

/-- Embedding of `deepseek_utils.limpiar_texto`: collapse repeated `.` `!` `?`
`-`, collapse any character repeated three or more times, collapse whitespace
runs to a single space, and strip. -/
def limpiar_texto (texto : String) : String :=
  pyStrip (String.mk (colapsaEspacios (colapsaLargos (colapsaRepetido '-'
    (colapsaRepetido '?' (colapsaRepetido '!' (colapsaRepetido '.' texto.data)))))))

/-! ### deepseek_utils.detectar_info_nueva

The DeepSeek API call `_call_deepseek` is an external collaborator: it is
modelled as `api : Except Unit String`, where `.error` means the call raised
and `.ok respuesta` is the returned text. -/

/-- Embedding of `deepseek_utils.detectar_info_nueva`. `resumen_actual` is
`Option String` so that Python `None` is representable; Python falsiness of a
string is emptiness. -/
def detectar_info_nueva (api : Except Unit String) (resumen_actual : Option String)
    (resenas_nuevas_textos : List String) : Bool :=
  let textos_validos := resenas_nuevas_textos.filter
    (fun t => t != "" && decide (20 < (pyStrip t).length))
  if textos_validos.isEmpty then false
  else
    let resumen := resumen_actual.getD ""
    if resumen = "" || (pyStrip resumen).length < 10 then true
    else
      match api with
      | .error _ => true
      | .ok respuesta => empiezaCon "SI" (pyUpper respuesta)

/-! ### deepseek_utils.muestreo_estrategico

`random.shuffle` is an external source of randomness: the two shuffle sites
are modelled by two function parameters. Python deduplicates by object
identity `id(review)`; distinct list positions are distinct objects, so the
embedding tags each review with its position index before sampling. -/

/-- A review row as consumed by the sampler: `texto` and `rating` fields of
the review dicts. -/
structure ReviewS where
  texto : String
  rating : Option Int
deriving DecidableEq, Repr

/-- The `agregar` helper of `muestreo_estrategico`: add a tagged review if its
identity was not selected yet and its `texto` is truthy. State is
`(seleccionadas, items_seleccionados)`. -/
def agregar (st : List Nat × List ReviewS) (r : Nat × ReviewS) :
    List Nat × List ReviewS :=
  if !st.1.contains r.1 && r.2.texto != "" then (r.1 :: st.1, st.2 ++ [r.2])
  else st

/-- Stage 4 of the sampler: fill with shuffled remaining reviews, stopping as
soon as the selection reaches `total`. -/
def rellenar (total : Nat) : List (Nat × ReviewS) → (List Nat × List ReviewS) →
    List Nat × List ReviewS
  | [], st => st
  | r :: rs, st =>
    if total ≤ st.2.length then st
    else rellenar total rs (agregar st r)

/-- Stable descending insertion by key: the element goes after every earlier
element with a strictly larger or equal key. -/
def insertaDesc (key : Nat × ReviewS → Nat) (a : Nat × ReviewS) :
    List (Nat × ReviewS) → List (Nat × ReviewS)
  | [] => [a]
  | b :: bs => if key a < key b then b :: insertaDesc key a bs else a :: b :: bs

/-- Stable descending sort by key: models Python
`sorted(l, key=key, reverse=True)`, which is a stable descending sort. -/
def ordenaDesc (key : Nat × ReviewS → Nat) : List (Nat × ReviewS) →
    List (Nat × ReviewS)
  | [] => []
  | a :: as => insertaDesc key a (ordenaDesc key as)

/-- Stage 1 of the sampler: the 20 most recent reviews. -/
def etapa1 (reviews : List ReviewS) : List Nat × List ReviewS :=
  (reviews.enum.take 20).foldl agregar ([], [])

/-- Stage 2: the 10 reviews with the longest text, by stable descending sort
on text length. -/
def etapa2 (reviews : List ReviewS) : List Nat × List ReviewS :=
  ((ordenaDesc (fun r => r.2.texto.length) reviews.enum).take 10).foldl agregar
    (etapa1 reviews)

/-- Stage 3: 10 shuffled reviews with extreme ratings (1, 2 or 5 stars). -/
def etapa3 (shuffleExtremos : List (Nat × ReviewS) → List (Nat × ReviewS))
    (reviews : List ReviewS) : List Nat × List ReviewS :=
  ((shuffleExtremos (reviews.enum.filter
      (fun r => r.2.rating == some 1 || r.2.rating == some 2 || r.2.rating == some 5))).take 10).foldl
    agregar (etapa2 reviews)

/-- Embedding of `deepseek_utils.muestreo_estrategico`. `shuffleExtremos` and
`shuffleRestantes` model the two `random.shuffle` calls. -/
def muestreo_estrategico
    (shuffleExtremos shuffleRestantes : List (Nat × ReviewS) → List (Nat × ReviewS))
    (reviews : List ReviewS) (total : Nat) : List ReviewS :=
  if reviews.length ≤ total then reviews.filter (fun r => r.texto != "")
  else
    (rellenar total
      (shuffleRestantes (reviews.enum.filter
        (fun r => !(etapa3 shuffleExtremos reviews).1.contains r.1)))
      (etapa3 shuffleExtremos reviews)).2

/-! ### MD5 (hashlib.md5) and scraping_utils.generar_id_review

`hashlib.md5(...).hexdigest()[:16]` is embedded as a full MD5 implementation
over byte lists, with 32-bit words as `Nat` reduced mod `2 ^ 32`. -/

/-- The 64 MD5 sine-table constants `K`. -/
def md5K : List Nat :=
  [0xd76aa478, 0xe8c7b756, 0x242070db, 0xc1bdceee,
   0xf57c0faf, 0x4787c62a, 0xa8304613, 0xfd469501,
   0x698098d8, 0x8b44f7af, 0xffff5bb1, 0x895cd7be,
   0x6b901122, 0xfd987193, 0xa679438e, 0x49b40821,
   0xf61e2562, 0xc040b340, 0x265e5a51, 0xe9b6c7aa,
   0xd62f105d, 0x02441453, 0xd8a1e681, 0xe7d3fbc8,
   0x21e1cde6, 0xc33707d6, 0xf4d50d87, 0x455a14ed,
   0xa9e3e905, 0xfcefa3f8, 0x676f02d9, 0x8d2a4c8a,
   0xfffa3942, 0x8771f681, 0x6d9d6122, 0xfde5380c,
   0xa4beea44, 0x4bdecfa9, 0xf6bb4b60, 0xbebfbc70,
   0x289b7ec6, 0xeaa127fa, 0xd4ef3085, 0x04881d05,
   0xd9d4d039, 0xe6db99e5, 0x1fa27cf8, 0xc4ac5665,
   0xf4292244, 0x432aff97, 0xab9423a7, 0xfc93a039,
   0x655b59c3, 0x8f0ccc92, 0xffeff47d, 0x85845dd1,
   0x6fa87e4f, 0xfe2ce6e0, 0xa3014314, 0x4e0811a1,
   0xf7537e82, 0xbd3af235, 0x2ad7d2bb, 0xeb86d391]

/-- The 64 MD5 per-round left-rotation amounts `s`. -/
def md5S : List Nat :=
  [7, 12, 17, 22, 7, 12, 17, 22, 7, 12, 17, 22, 7, 12, 17, 22,
   5, 9, 14, 20, 5, 9, 14, 20, 5, 9, 14, 20, 5, 9, 14, 20,
   4, 11, 16, 23, 4, 11, 16, 23, 4, 11, 16, 23, 4, 11, 16, 23,
   6, 10, 15, 21, 6, 10, 15, 21, 6, 10, 15, 21, 6, 10, 15, 21]

/-- 32-bit complement. -/
def not32 (a : Nat) : Nat := a ^^^ 0xffffffff

/-- 32-bit left rotation of a word already reduced mod `2 ^ 32`. -/
def rotl32 (x s : Nat) : Nat := ((x <<< s) ||| (x >>> (32 - s))) % 4294967296

/-- Little-endian split of a 32-bit word into four bytes. -/
def bytesLE4 (w : Nat) : List Nat :=
  [w % 256, w / 256 % 256, w / 65536 % 256, w / 16777216 % 256]

/-- Little-endian 8-byte encoding of the 64-bit message bit length. -/
def lenBytesLE (n : Nat) : List Nat :=
  (List.range 8).map (fun i => (n >>> (8 * i)) % 256)

/-- MD5 padding: append `0x80`, zero bytes to reach 56 mod 64, then the
little-endian 64-bit bit length. -/
def mdPad (msg : List Nat) : List Nat :=
  msg ++ [128] ++ List.replicate ((119 - msg.length % 64) % 64) 0 ++
    lenBytesLE ((msg.length * 8) % (2 ^ 64))

/-- Split a byte list into 64-byte chunks. -/
def chunksOf64 : List Nat → List (List Nat)
  | [] => []
  | a :: rest => (a :: rest.take 63) :: chunksOf64 (rest.drop 63)
  termination_by l => l.length
  decreasing_by
    simp only [List.length_cons, List.length_drop]
    omega

/-- The MD5 round mixing function for round index `i`. -/
def md5F (i b c d : Nat) : Nat :=
  if i < 16 then (b &&& c) ||| (not32 b &&& d)
  else if i < 32 then (d &&& b) ||| (not32 d &&& c)
  else if i < 48 then b ^^^ c ^^^ d
  else c ^^^ (b ||| not32 d)

/-- The MD5 message-word index for round index `i`. -/
def md5G (i : Nat) : Nat :=
  if i < 16 then i
  else if i < 32 then (5 * i + 1) % 16
  else if i < 48 then (3 * i + 5) % 16
  else (7 * i) % 16

/-- The `g`-th little-endian 32-bit word of a 64-byte chunk. -/
def wordAt (blk : List Nat) (g : Nat) : Nat :=
  blk.getD (4 * g) 0 + blk.getD (4 * g + 1) 0 * 256 +
    blk.getD (4 * g + 2) 0 * 65536 + blk.getD (4 * g + 3) 0 * 16777216

/-- One MD5 round step on state `(a, b, c, d)`. -/
def md5Step (blk : List Nat) (st : Nat × Nat × Nat × Nat) (i : Nat) :
    Nat × Nat × Nat × Nat :=
  let f := (md5F i st.2.1 st.2.2.1 st.2.2.2 + st.1 + md5K.getD i 0 +
    wordAt blk (md5G i)) % 4294967296
  (st.2.2.2, (st.2.1 + rotl32 f (md5S.getD i 0)) % 4294967296, st.2.1, st.2.2.1)

/-- Process one 64-byte chunk: 64 round steps, then add the previous state. -/
def md5Block (st : Nat × Nat × Nat × Nat) (blk : List Nat) :
    Nat × Nat × Nat × Nat :=
  let r := (List.range 64).foldl (md5Step blk) st
  ((r.1 + st.1) % 4294967296, (r.2.1 + st.2.1) % 4294967296,
   (r.2.2.1 + st.2.2.1) % 4294967296, (r.2.2.2 + st.2.2.2) % 4294967296)

/-- Final MD5 state over a padded message, from the standard initial state. -/
def md5Final (msg : List Nat) : Nat × Nat × Nat × Nat :=
  (chunksOf64 (mdPad msg)).foldl md5Block
    (0x67452301, 0xefcdab89, 0x98badcfe, 0x10325476)

/-- The 16-byte MD5 digest of a byte list. -/
def md5Digest (msg : List Nat) : List Nat :=
  bytesLE4 (md5Final msg).1 ++ bytesLE4 (md5Final msg).2.1 ++
    bytesLE4 (md5Final msg).2.2.1 ++ bytesLE4 (md5Final msg).2.2.2

/-- Lower-case hexadecimal digit. -/
def hexDigit (n : Nat) : Char :=
  if n < 10 then Char.ofNat (48 + n) else Char.ofNat (87 + n)

/-- Two hexadecimal characters of one byte. -/
def byteHex (b : Nat) : List Char := [hexDigit (b / 16), hexDigit (b % 16)]

/-- The 32 characters of `hashlib.md5(msg).hexdigest()`. -/
def md5hexChars (msg : List Nat) : List Char := ((md5Digest msg).map byteHex).flatten

/-- UTF-8 bytes of a string, models Python `s.encode('utf-8')`. -/
def strBytes (s : String) : List Nat := s.toUTF8.toList.map UInt8.toNat

/-- Embedding of `scraping_utils.generar_id_review`: normalize the three
review fields (Python `None` is `Option.none`), join with the place URL, and
take the first 16 characters of the MD5 hex digest. -/
def generar_id_review (url : String) (autor fecha texto : Option String) : String :=
  let texto_norm := pyStrip (pyLower (pyTake 50 (texto.getD "")))
  let autor_norm := pyStrip (pyLower (autor.getD ""))
  let fecha_norm := pyStrip (pyLower (fecha.getD ""))
  let unique_str := url ++ "|" ++ autor_norm ++ "|" ++ fecha_norm ++ "|" ++ texto_norm
  String.mk ((md5hexChars (strBytes unique_str)).take 16)

/-! ### scraping_utils.extraer_reviews_de_pagina

The Selenium page is modelled as the list of review blocks
(`div.jftiEf` elements) already present in the page source; each block
carries the text of its optional author (`d4r55`), text (`wiI7pd`) and date
(`rsqaWe`) children and the `aria-label`s of its `span[role=img]` tags. -/

/-- One review block of the page. -/
structure Bloque where
  autor_elem : Option String
  texto_elem : Option String
  fecha_elem : Option String
  img_labels : List (Option String)
deriving DecidableEq, Repr

/-- The `metadata` dict handed to `extraer_reviews_de_pagina`; missing keys
are `none`, geographic coordinates are abstract numeric carriers. -/
structure Metadata where
  nombre : Option String
  categoria : Option String
  rating_gral : Option String
  total_google : Option Nat
  direccion : Option String
  latitud : Option Int
  longitud : Option Int
deriving DecidableEq, Repr

/-- One element of `ultimas_reviews_db`: a stored author (already normalized)
and stored text prefix used for the early-stop comparison. -/
structure DbRev where
  autor : String
  texto_inicio : String
deriving DecidableEq, Repr

/-- One row appended to `reviews_data`. `rating_user` keeps the numeric
literal matched by `re.search(r'(\d+[.,]?\d*)')` with `,` replaced by `.`;
the Python `float(...)` conversion is representation only. -/
structure Row where
  restaurante : String
  categoria : String
  rating_gral : Option String
  total_reviews_google : Nat
  direccion : Option String
  latitud : Option Int
  longitud : Option Int
  autor : String
  rating_user : Option String
  texto : String
  fecha_aproximada : Option String
  fecha_original : Option String
  url : String
  fecha_scraping : String
  review_id : String
deriving DecidableEq, Repr

/-- `autor` of a block: the stripped author text, or the `"Anónimo"` default. -/
def bloqueAutor (b : Bloque) : String := (b.autor_elem.map pyStrip).getD "Anónimo"

/-- `texto` of a block: the stripped review text, or the empty default. -/
def bloqueTexto (b : Bloque) : String := (b.texto_elem.map pyStrip).getD ""

/-- First match of `re.search(r'(\d+[.,]?\d*)', s)` with `,` replaced by `.`:
a maximal digit run, optionally a decimal point and a further digit run. -/
def primerNumeroDecimal : List Char → Option (List Char)
  | [] => none
  | c :: cs =>
    if c.isDigit then
      let ds := c :: cs.takeWhile Char.isDigit
      match cs.dropWhile Char.isDigit with
      | p :: rest2 =>
        if p == '.' || p == ',' then
          some (ds ++ '.' :: rest2.takeWhile Char.isDigit)
        else some ds
      | [] => some ds
    else primerNumeroDecimal cs

/-- The user-rating extraction loop of `extraer_reviews_de_pagina`: the first
star-labelled image tag that contains a number yields the rating. -/
def ratingDeLabels : List (Option String) → Option String
  | [] => none
  | tag :: resto =>
    let lbl := pyLower (tag.getD "")
    if contiene "estrella" lbl || contiene "star" lbl then
      match primerNumeroDecimal lbl.data with
      | some num => some (String.mk num)
      | none => ratingDeLabels resto
    else ratingDeLabels resto

/-- The early-stop comparison of `extraer_reviews_de_pagina`: some stored
review has this normalized author, and the normalized text begins with the
first 50 characters of its stored text prefix. -/
def coincideDb (db : List DbRev) (autor texto : String) : Bool :=
  let autor_norm := pyLower (pyStrip autor)
  let texto_norm := normSpace (pyLower (pyTake 100 texto))
  db.any (fun r => autor_norm == r.autor && empiezaCon (pyTake 50 r.texto_inicio) texto_norm)

/-- The row dict built for one block. -/
def mkRow (fmt : Int → String) (ahora : Int) (url : String) (meta : Metadata)
    (fecha_scraping : String) (b : Bloque) : Row :=
  let autor := bloqueAutor b
  let texto := bloqueTexto b
  let fecha_texto := b.fecha_elem.map pyStrip
  let fechas := parsear_fecha_relativa fmt ahora fecha_texto
  { restaurante := meta.nombre.getD "Desconocido"
    categoria := meta.categoria.getD ""
    rating_gral := meta.rating_gral
    total_reviews_google := meta.total_google.getD 0
    direccion := meta.direccion
    latitud := meta.latitud
    longitud := meta.longitud
    autor := autor
    rating_user := ratingDeLabels b.img_labels
    texto := texto
    fecha_aproximada := fechas.1
    fecha_original := fechas.2
    url := url
    fecha_scraping := fecha_scraping
    review_id := generar_id_review url (some autor) fecha_texto (some texto) }

/-- Embedding of the block loop of `scraping_utils.extraer_reviews_de_pagina`:
scan blocks in page order; with a truthy `ultimas_reviews_db`, stop before the
first block matching a stored review and report `early_stopped`. -/
def extraerAux (fmt : Int → String) (ahora : Int) (url : String) (meta : Metadata)
    (fecha_scraping : String) (db : List DbRev) : List Bloque → List Row × Bool
  | [] => ([], false)
  | b :: bs =>
    if !db.isEmpty && coincideDb db (bloqueAutor b) (bloqueTexto b) then ([], true)
    else
      let r := extraerAux fmt ahora url meta fecha_scraping db bs
      (mkRow fmt ahora url meta fecha_scraping b :: r.1, r.2)

/-- Embedding of `scraping_utils.extraer_reviews_de_pagina`, returning
`(reviews_data, early_stopped)`. A Python `ultimas_reviews_db` of `None` is
the empty list (both are falsy, disabling the early-stop check). -/
def extraer_reviews_de_pagina (fmt : Int → String) (ahora : Int) (url : String)
    (meta : Metadata) (fecha_scraping : String) (db : List DbRev)
    (bloques : List Bloque) : List Row × Bool :=
  extraerAux fmt ahora url meta fecha_scraping db bloques

/-! ### db_utils.insertar_reviews_batch

The `reviews` table is modelled as a list of stored rows, in insertion order,
with no uniqueness constraints (none are created in this repository). The
SQL `LIKE` operator is embedded with its `%` and `_` wildcard semantics, and
SQL `TRIM` removes spaces only, while Python `str.strip` removes whitespace. -/

/-- One stored row of the `reviews` table (the columns the INSERT writes). -/
structure StoredReview where
  restaurante : String
  autor : String
  rating_user : Option String
  texto : String
  fecha_aproximada : Option String
  fecha_original : Option String
  fecha_scraping : String
  review_id : String
deriving DecidableEq, Repr

/-- SQL `LIKE` matching of a whole string against a pattern: `%` matches any
character sequence (the rest of the pattern is tried against every suffix),
`_` matches any single character. -/
def likeMatch : List Char → List Char → Bool
  | [], s => s.isEmpty
  | p :: ps, s =>
    if p == '%' then s.tails.any (fun suf => likeMatch ps suf)
    else
      match s with
      | [] => false
      | c :: s2 => (p == '_' || p == c) && likeMatch ps s2

/-- SQL `TRIM`: remove leading and trailing space characters. -/
def sqlTrim (s : String) : String :=
  String.mk ((((s.data.dropWhile (· == ' ')).reverse).dropWhile (· == ' ')).reverse)

/-- The stored row written for one review dict by `insertar_reviews_batch`. -/
def mkStored (r : Row) : StoredReview :=
  { restaurante := r.restaurante, autor := r.autor, rating_user := r.rating_user,
    texto := r.texto, fecha_aproximada := r.fecha_aproximada,
    fecha_original := r.fecha_original, fecha_scraping := r.fecha_scraping,
    review_id := r.review_id }

/-- One row of the duplicate-check SELECT: same `restaurante`, same lowered
trimmed author, and `LOWER(LEFT(texto, 100))` LIKE the pattern. -/
def dedupMatch (restaurante autor_norm : String) (patron : List Char)
    (row : StoredReview) : Bool :=
  row.restaurante == restaurante &&
  pyLower (sqlTrim row.autor) == autor_norm &&
  likeMatch patron (pyLower (pyTake 100 row.texto)).data

/-- The LIKE pattern of the duplicate check: the first 50 characters of the
whitespace-normalized lowered text prefix, followed by `%`. -/
def dedupPatron (r : Row) : List Char :=
  (pyTake 50 (normSpace (pyLower (pyTake 100 r.texto)))).data ++ [ '%' ]

/-- Whether the duplicate-check SELECT of `insertar_reviews_batch` finds a
row for review `r` in the current table state. -/
def dedupBusca (db : List StoredReview) (r : Row) : Bool :=
  db.any (dedupMatch r.restaurante (pyLower (pyStrip r.autor)) (dedupPatron r))

/-- The review loop of `insertar_reviews_batch`: each review is either
counted as a duplicate or appended to the table. Counters are accumulated on
the way out, which yields the same totals as the in-place increments. -/
def insertarAux (db : List StoredReview) : List Row → Nat × Nat × List StoredReview
  | [] => (0, 0, db)
  | r :: rs =>
    if dedupBusca db r then
      let res := insertarAux db rs
      (res.1, res.2.1 + 1, res.2.2)
    else
      let res := insertarAux (db ++ [mkStored r]) rs
      (res.1 + 1, res.2.1, res.2.2)

/-- Embedding of `db_utils.insertar_reviews_batch`, returning
`(insertadas, duplicadas, table state)`. An empty batch returns immediately. -/
def insertar_reviews_batch (reviews_data : List Row) (db : List StoredReview) :
    Nat × Nat × List StoredReview :=
  insertarAux db reviews_data

/-! ### monitor_reviews.procesar_lugar

The browser session is modelled by a `PageEnv`: the review count and rating
read from the page, whether the opinions tab could be reached (after the
built-in refresh retry), the loaded review blocks, and whether a driver
exception is raised (all raise points precede every database write in the
function body, so the exception is modelled at entry). -/

/-- Visit outcome, the `estado` strings of `procesar_lugar`. -/
inductive Estado
  | SIN_CAMBIOS
  | NUEVAS_REVIEWS
  | ERROR
  | SIN_PESTANA
deriving DecidableEq, Repr

/-- One row of `get_lugares_para_monitoreo`. -/
structure Lugar where
  url : String
  nombre : String
  last_count : Option Nat
  direccion : Option String
deriving DecidableEq, Repr

/-- The page as seen by one visit. -/
structure PageEnv where
  raises : Bool
  count_actual : Nat
  rating_actual : Option String
  tab_ok : Bool
  bloques : List Bloque
  fecha_scraping : String
  ahora : Int

/-- Result of `procesar_lugar`: the returned `(nuevas_reviews, estado)` pair,
plus whether `upsert_lugar` was invoked (the write that sets the place's
`fecha_scraping` to `NOW()`). -/
structure ProcOut where
  reviews : List Row
  estado : Estado
  upsert_llamado : Bool
deriving Repr

/-- Embedding of `monitor_reviews.procesar_lugar`. -/
def procesar_lugar (fmt : Int → String) (env : PageEnv) (lugar : Lugar)
    (ultimas_reviews_db : List DbRev) : ProcOut :=
  let count_db := lugar.last_count.getD 0
  if env.raises then ⟨[], .ERROR, false⟩
  else if 0 < env.count_actual && env.count_actual == count_db then
    ⟨[], .SIN_CAMBIOS, true⟩
  else if !env.tab_ok then ⟨[], .SIN_PESTANA, false⟩
  else
    let metadata : Metadata :=
      { nombre := some lugar.nombre, categoria := some "",
        rating_gral := env.rating_actual, total_google := some env.count_actual,
        direccion := lugar.direccion, latitud := none, longitud := none }
    let r := extraer_reviews_de_pagina fmt env.ahora lugar.url metadata
      env.fecha_scraping ultimas_reviews_db env.bloques
    if !r.1.isEmpty then ⟨r.1, .NUEVAS_REVIEWS, true⟩
    else ⟨[], .SIN_CAMBIOS, true⟩

/-! ### monitor_reviews.run_monitor

The main loop is modelled over a list of simulated targets, each consuming a
wall-clock duration and either completing or raising (the per-target handler
catches the exception and only updates error counters). -/

/-- One simulated target of the run loop. -/
structure LugarSim where
  duration : Nat
  ok : Bool
deriving DecidableEq, Repr

/-- Observable result of the run loop. -/
structure RunRes where
  started : Nat
  procesados : Nat
  timed_out : Bool
deriving DecidableEq, Repr

/-- The target loop of `run_monitor`: before each target, compare elapsed
time against the budget; on reaching it, stop without starting new work. -/
def runLoop (budget : Nat) : Nat → List LugarSim → RunRes
  | _, [] => ⟨0, 0, false⟩
  | elapsed, l :: ls =>
    if budget ≤ elapsed then ⟨0, 0, true⟩
    else
      let r := runLoop budget (elapsed + l.duration) ls
      ⟨r.started + 1, r.procesados + (if l.ok then 1 else 0), r.timed_out⟩

/-- Embedding of `monitor_reviews.run_monitor`: the loop result, paired with
whether the final CONTINUE_NEEDED signal is printed. -/
def run_monitor (budget : Nat) (lugares : List LugarSim) : RunRes × Bool :=
  let r := runLoop budget 0 lugares
  (r, r.timed_out && decide (r.procesados < lugares.length))

/-- Wall-clock time elapsed when the `i`-th target (0-based) comes up. -/
def durTake (lugares : List LugarSim) (i : Nat) : Nat :=
  ((lugares.take i).map LugarSim.duration).sum

/-! ### regenerate_embeddings.regenerate_incremental

The loop body for one place. Database reads, the summarizer and the novelty
check are collaborators: `reviews_nuevas` is the result of
`get_reviews_nuevas_sin_embedding`, `hay_reviews` whether
`get_todas_reviews_lugar` is non-empty, `gen_ok` whether
`generar_resumen_reviews` returns non-empty text, and `novedad` the
`detectar_info_nueva` verdict. -/

/-- What the incremental pass does for one place. -/
inductive AccionIncremental
  | nada
  | generar_nuevo
  | solo_timestamp
  | regenerar
deriving DecidableEq, Repr

/-- The quality filter of `regenerate_incremental`: truthy reviews whose
cleaned text is strictly longer than 30 characters. -/
def reviews_validas (reviews_nuevas : List String) : List String :=
  reviews_nuevas.filter (fun r => r != "" && decide (30 < (limpiar_texto r).length))

/-- Embedding of one iteration of the place loop of
`regenerate_incremental`. `solo_timestamp` is the
`actualizar_resumen_lugar(nombre, resumen_actual)` call that advances the
embedding timestamp without changing the summary; `regenerar` is the
regeneration path behind a positive novelty verdict. -/
def incremental_step (novedad : String → List String → Bool) (gen_ok : Bool)
    (hay_reviews : Bool) (resumen_actual : Option String)
    (reviews_nuevas : List String) : AccionIncremental :=
  let resumen := resumen_actual.getD ""
  if resumen = "" then
    if hay_reviews && gen_ok then .generar_nuevo else .nada
  else if reviews_nuevas.isEmpty then .nada
  else if (reviews_validas reviews_nuevas).length < 20 then .solo_timestamp
  else if novedad resumen (reviews_validas reviews_nuevas) then
    (if gen_ok then .regenerar else .nada)
  else .solo_timestamp

/-! ### Concrete example inputs used by witnesses and counterexamples -/

/-- A review row whose text contains a double space inside the compared
prefix; the normalized LIKE pattern then misses the stored raw text. -/
def filaDobleEspacio : Row :=
  { restaurante := "x"
    categoria := ""
    rating_gral := none
    total_reviews_google := 0
    direccion := none
    latitud := none
    longitud := none
    autor := "Ana"
    rating_user := none
    texto := "a  b"
    fecha_aproximada := none
    fecha_original := none
    url := "u"
    fecha_scraping := "f"
    review_id := "id" }

/-- A review row with single-spaced text, which survives the round trip. -/
def filaLimpia : Row :=
  { filaDobleEspacio with autor := "Ana", texto := "hola comida rica" }

/-- Round-trip hypothesis for one review in the idempotence theorem: the
50-character normalized text prefix occurs literally at the start of the
lowered stored text, and trimming the author with SQL TRIM (spaces) or with
Python strip (whitespace) agrees after lowering. -/
abbrev filaHyp (r : Row) : Prop :=
  isPrefixL (pyTake 50 (normSpace (pyLower (pyTake 100 r.texto)))).data
      (pyLower (pyTake 100 r.texto)).data = true ∧
  pyLower (sqlTrim r.autor) = pyLower (pyStrip r.autor)

/-- Stored early-stop data for the extraction witness. -/
def dbEj : List DbRev := [⟨"ana", "viejo texto conocido"⟩]

/-- Page metadata for the extraction witness. -/
def metaEj : Metadata := ⟨some "Lugar", some "", none, some 9, none, none, none⟩

/-- Page blocks for the extraction witness: one new review, then the stored
one, then an older one. -/
def bloquesEj : List Bloque :=
  [⟨some "Beto", some "nuevo plato", none, []⟩,
   ⟨some "Ana", some "viejo texto conocido y algo mas", none, []⟩,
   ⟨some "Caro", some "viejisimo", none, []⟩]

/-- A page on which the opinions tab is never found. -/
def envSinPestana : PageEnv := ⟨false, 5, none, false, [], "fs", 0⟩

/-- A page visit that raises a driver exception. -/
def envConError : PageEnv := ⟨true, 5, none, true, [], "fs", 0⟩

/-- A place row for the monitor examples. -/
def lugarEj : Lugar := ⟨"u", "Lugar", some 0, none⟩

/-- Three simulated targets of 25 seconds each, for a 50-second budget. -/
def lugaresEj : List LugarSim := [⟨25, true⟩, ⟨25, true⟩, ⟨25, true⟩]

/-- Two targets, the first of which raises. -/
def lugaresConError : List LugarSim := [⟨5, false⟩, ⟨5, true⟩]

/-- Two targets with the same durations, none raising. -/
def lugaresSanos : List LugarSim := [⟨5, true⟩, ⟨5, true⟩]

/-! ## Theorems -/

/-! ### C10: totality of parsear_fecha_relativa -/

/-- Claim C10: parsear_fecha_relativa is total; it returns `(none, none)` for
missing or empty input, and `(none, original text)` whenever the lowercased
trimmed text contains none of the recognized time-unit substrings. -/
theorem parsear_fecha_relativa_seguro (fmt : Int → String) (ahora : Int)
    (texto : String) (hne : texto ≠ "")
    (h : ∀ u ∈ unidadesTiempo, contiene u (pyStrip (pyLower texto)) = false) :
    parsear_fecha_relativa fmt ahora none = (none, none) ∧
    parsear_fecha_relativa fmt ahora (some "") = (none, none) ∧
    parsear_fecha_relativa fmt ahora (some texto) = (none, some texto) := by
  refine ⟨rfl, by simp [parsear_fecha_relativa], ?_⟩
  have h1 := h "día" (by simp [unidadesTiempo])
  have h2 := h "dia" (by simp [unidadesTiempo])
  have h3 := h "semana" (by simp [unidadesTiempo])
  have h4 := h "mes" (by simp [unidadesTiempo])
  have h5 := h "meses" (by simp [unidadesTiempo])
  have h6 := h "año" (by simp [unidadesTiempo])
  have h7 := h "años" (by simp [unidadesTiempo])
  have h8 := h "hora" (by simp [unidadesTiempo])
  have h9 := h "minuto" (by simp [unidadesTiempo])
  simp [parsear_fecha_relativa, hne, h1, h2, h3, h4, h5, h6, h7, h8, h9]

/-- Witness for C10 at the unit-free text "hola". -/
theorem parsear_fecha_relativa_seguro_witness :
    ("hola" : String) ≠ "" ∧
    (∀ u ∈ unidadesTiempo, contiene u (pyStrip (pyLower "hola")) = false) ∧
    parsear_fecha_relativa (fun _ => "") 0 (some "hola") = (none, some "hola") :=
  ⟨by decide, by decide,
    (parsear_fecha_relativa_seguro (fun _ => "") 0 "hola" (by decide) (by decide)).2.2⟩

/-! ### C8: detectar_info_nueva with no existing summary -/

/-- Counterexample for C8 as stated: with no existing summary but no valid
new text, detectar_info_nueva returns false, not true. -/
theorem detectar_info_nueva_sin_resumen_cex :
    ¬ (detectar_info_nueva (Except.ok "SI") none ["ok"] = true) := by decide

/-- Claim C8 (amended): detectar_info_nueva returns true whenever the summary
is absent or effectively empty, provided at least one new text is valid
(non-empty with trimmed length above 20); the valid-text filter runs first,
so without such a text it returns false even with no summary. -/
theorem detectar_info_nueva_sin_resumen (api : Except Unit String)
    (resumen_actual : Option String) (textos : List String) (t : String)
    (ht : t ∈ textos) (h1 : t ≠ "") (h2 : 20 < (pyStrip t).length)
    (hres : resumen_actual.getD "" = "" ∨ (pyStrip (resumen_actual.getD "")).length < 10) :
    detectar_info_nueva api resumen_actual textos = true := by
  have hmem : t ∈ textos.filter (fun t => t != "" && decide (20 < (pyStrip t).length)) :=
    List.mem_filter.2 ⟨ht, by simp [h1, h2]⟩
  have hne : (textos.filter (fun t => t != "" && decide (20 < (pyStrip t).length))).isEmpty = false := by
    cases hfil : textos.filter (fun t => t != "" && decide (20 < (pyStrip t).length)) with
    | nil => exact absurd (hfil ▸ hmem) (List.not_mem_nil t)
    | cons a l => rfl
  unfold detectar_info_nueva
  rcases hres with hv | hv <;> simp [hne, hv]

/-- Witness for C8 (amended): one long valid text, no summary. -/
theorem detectar_info_nueva_sin_resumen_witness :
    ("una reseña nueva bastante larga" : String) ∈
        ["una reseña nueva bastante larga"] ∧
    detectar_info_nueva (Except.ok "NO") none ["una reseña nueva bastante larga"] = true :=
  ⟨by decide,
    detectar_info_nueva_sin_resumen (Except.ok "NO") none
      ["una reseña nueva bastante larga"] "una reseña nueva bastante larga"
      (by decide) (by decide) (by decide) (Or.inl (by decide))⟩

/-! ### C6: muestreo_estrategico bounds -/

/-- Adding one review grows the selection by at most one. -/
theorem agregar_length_le (st : List Nat × List ReviewS) (r : Nat × ReviewS) :
    (agregar st r).2.length ≤ st.2.length + 1 := by
  unfold agregar
  split
  · simp
  · exact Nat.le_succ _

/-- A fold of `agregar` grows the selection by at most the number of reviews
folded in. -/
theorem foldl_agregar_length_le (l : List (Nat × ReviewS)) :
    ∀ st : List Nat × List ReviewS,
      (l.foldl agregar st).2.length ≤ st.2.length + l.length := by
  induction l with
  | nil => intro st; simp
  | cons a l ih =>
    intro st
    simp only [List.foldl_cons, List.length_cons]
    calc (List.foldl agregar (agregar st a) l).2.length
        ≤ (agregar st a).2.length + l.length := ih (agregar st a)
      _ ≤ st.2.length + 1 + l.length := Nat.add_le_add_right (agregar_length_le st a) _
      _ = st.2.length + (l.length + 1) := by omega

/-- Stage 4 never pushes the selection beyond `max` of its entry size and the
quota. -/
theorem rellenar_length_le (total : Nat) (l : List (Nat × ReviewS)) :
    ∀ st : List Nat × List ReviewS,
      (rellenar total l st).2.length ≤ Nat.max st.2.length total := by
  induction l with
  | nil => intro st; exact Nat.le_max_left _ _
  | cons r rs ih =>
    intro st
    unfold rellenar
    split
    · exact Nat.le_max_left _ _
    · rename_i hlt
      have hst : st.2.length < total := Nat.lt_of_not_le hlt
      have hag : (agregar st r).2.length ≤ total :=
        le_trans (agregar_length_le st r) hst
      calc (rellenar total rs (agregar st r)).2.length
          ≤ Nat.max (agregar st r).2.length total := ih (agregar st r)
        _ = total := Nat.max_eq_right hag
        _ ≤ Nat.max st.2.length total := Nat.le_max_right _ _

set_option maxRecDepth 20000 in
/-- Counterexample for C6 as stated: with 21 reviews and quota 1, stage 1
alone selects 20 reviews; and with a single empty-text review under quota,
the skip branch filters it out instead of returning all items. -/
theorem muestreo_estrategico_cuota_cex :
    ¬ (((muestreo_estrategico id id (List.replicate 21 ⟨"a", none⟩) 1).length ≤ 1) ∧
       muestreo_estrategico id id [⟨"", none⟩] 5 = [⟨"", none⟩]) := by
  decide

/-- Claim C6 (amended): for any shuffles, any input and any quota of at least
40 (the combined fixed sub-quotas of stages 1 to 3, which do not check the
total), the sample has at most `total` reviews; and when the input fits the
quota, sampling is skipped and exactly the reviews with non-empty text are
returned, in order. -/
theorem muestreo_estrategico_cuota
    (se sr : List (Nat × ReviewS) → List (Nat × ReviewS))
    (reviews : List ReviewS) (total : Nat) :
    (40 ≤ total → (muestreo_estrategico se sr reviews total).length ≤ total) ∧
    (reviews.length ≤ total →
      muestreo_estrategico se sr reviews total =
        reviews.filter (fun r => r.texto != "")) := by
  constructor
  · intro h40
    by_cases hlen : reviews.length ≤ total
    · rw [muestreo_estrategico, if_pos hlen]
      exact le_trans (List.length_filter_le _ _) hlen
    · rw [muestreo_estrategico, if_neg hlen]
      have h1 : (etapa1 reviews).2.length ≤ 20 := by
        have hf := foldl_agregar_length_le (reviews.enum.take 20) ([], [])
        have hlen20 : (reviews.enum.take 20).length ≤ 20 := List.length_take_le 20 _
        simp only [List.length_nil] at hf
        simp only [etapa1]
        omega
      have h2 : (etapa2 reviews).2.length ≤ 30 := by
        have hf := foldl_agregar_length_le
          ((ordenaDesc (fun r => r.2.texto.length) reviews.enum).take 10) (etapa1 reviews)
        have hlen10 : ((ordenaDesc (fun r => r.2.texto.length) reviews.enum).take 10).length ≤ 10 :=
          List.length_take_le 10 _
        simp only [etapa2]
        omega
      have h3 : (etapa3 se reviews).2.length ≤ 40 := by
        have hf := foldl_agregar_length_le
          ((se (reviews.enum.filter
            (fun r => r.2.rating == some 1 || r.2.rating == some 2 || r.2.rating == some 5))).take 10)
          (etapa2 reviews)
        have hlen10 : ((se (reviews.enum.filter
            (fun r => r.2.rating == some 1 || r.2.rating == some 2 || r.2.rating == some 5))).take 10).length ≤ 10 :=
          List.length_take_le 10 _
        simp only [etapa3]
        omega
      have hmax := rellenar_length_le total
        (sr (reviews.enum.filter (fun r => !(etapa3 se reviews).1.contains r.1)))
        (etapa3 se reviews)
      have : Nat.max (etapa3 se reviews).2.length total = total :=
        Nat.max_eq_right (le_trans h3 h40)
      omega
  · intro hlen
    rw [muestreo_estrategico, if_pos hlen]

set_option maxRecDepth 20000 in
/-- Witness for C6 (amended) at quota 40: 21 equal reviews fit the quota and
are all returned; the bound holds as well. -/
theorem muestreo_estrategico_cuota_witness :
    (40 ≤ 40 ∧ (muestreo_estrategico id id (List.replicate 21 ⟨"a", none⟩) 40).length ≤ 40) ∧
    ((List.replicate 21 (⟨"a", none⟩ : ReviewS)).length ≤ 40 ∧
      muestreo_estrategico id id (List.replicate 21 ⟨"a", none⟩) 40 =
        (List.replicate 21 (⟨"a", none⟩ : ReviewS)).filter (fun r => r.texto != "")) :=
  ⟨⟨by decide,
    (muestreo_estrategico_cuota id id (List.replicate 21 ⟨"a", none⟩) 40).1 (by decide)⟩,
   ⟨by decide,
    (muestreo_estrategico_cuota id id (List.replicate 21 ⟨"a", none⟩) 40).2 (by decide)⟩⟩

/-! ### C1: early-stop extraction -/

/-- Claim C1: with a non-empty stored set, extraer_reviews_de_pagina returns
exactly the rows of the maximal prefix of blocks preceding the first block
whose normalized author equals a stored author and whose normalized text
starts with the first 50 characters of that stored text prefix; the matched
block and everything after it are dropped, and early_stopped holds exactly
when such a block exists. -/
theorem extraer_reviews_de_pagina_early_stop (fmt : Int → String) (ahora : Int)
    (url : String) (meta : Metadata) (fs : String) (db : List DbRev)
    (bloques : List Bloque) (hdb : db ≠ []) :
    extraer_reviews_de_pagina fmt ahora url meta fs db bloques =
      ((bloques.takeWhile (fun b => !coincideDb db (bloqueAutor b) (bloqueTexto b))).map
          (mkRow fmt ahora url meta fs),
        bloques.any (fun b => coincideDb db (bloqueAutor b) (bloqueTexto b))) := by
  have hne : db.isEmpty = false := by
    cases db with
    | nil => exact absurd rfl hdb
    | cons a l => rfl
  unfold extraer_reviews_de_pagina
  induction bloques with
  | nil => rfl
  | cons b bs ih =>
    by_cases hm : coincideDb db (bloqueAutor b) (bloqueTexto b) = true
    · simp [extraerAux, hne, hm]
    · simp only [Bool.not_eq_true] at hm
      simp [extraerAux, hne, hm, ih]

/-- Witness for C1: a non-empty stored set, a page with one new block, the
matching block and an older one. -/
theorem extraer_reviews_de_pagina_early_stop_witness :
    dbEj ≠ [] ∧
    extraer_reviews_de_pagina (fun _ => "") 0 "u" metaEj "fs" dbEj bloquesEj =
      ((bloquesEj.takeWhile
          (fun b => !coincideDb dbEj (bloqueAutor b) (bloqueTexto b))).map
          (mkRow (fun _ => "") 0 "u" metaEj "fs"),
        bloquesEj.any (fun b => coincideDb dbEj (bloqueAutor b) (bloqueTexto b))) :=
  ⟨by decide,
    extraer_reviews_de_pagina_early_stop (fun _ => "") 0 "u" metaEj "fs" dbEj bloquesEj
      (by decide)⟩

/-! ### C2: generar_id_review is total, deterministic, fixed length -/

/-- The MD5 digest always has 16 bytes. -/
theorem md5Digest_length (msg : List Nat) : (md5Digest msg).length = 16 := by
  simp [md5Digest, bytesLE4]

/-- Hex expansion doubles the byte count. -/
theorem byteHex_flatten_length (l : List Nat) :
    ((l.map byteHex).flatten).length = 2 * l.length := by
  induction l with
  | nil => simp
  | cons a l ih =>
    simp only [List.map_cons, List.flatten_cons, List.length_append, ih,
      byteHex, List.length_cons, List.length_nil]
    omega

/-- The hex digest always has 32 characters. -/
theorem md5hexChars_length (msg : List Nat) : (md5hexChars msg).length = 32 := by
  rw [md5hexChars, byteHex_flatten_length, md5Digest_length]

/-- Claim C2: generar_id_review is total (None fields are normalized to the
empty string), deterministic, and always returns a 16-character identity. -/
theorem generar_id_review_seguro (url : String) (autor fecha texto : Option String) :
    (generar_id_review url autor fecha texto).length = 16 ∧
    generar_id_review url autor fecha texto = generar_id_review url autor fecha texto ∧
    generar_id_review url none none none =
      generar_id_review url (some "") (some "") (some "") := by
  refine ⟨?_, rfl, rfl⟩
  simp [generar_id_review, String.length, List.length_take, md5hexChars_length]

/-! ### C3: idempotence of insertar_reviews_batch -/

/-- A true boolean prefix test gives an explicit decomposition. -/
theorem isPrefixL_append (a : List Char) :
    ∀ b, isPrefixL a b = true → ∃ t, b = a ++ t := by
  induction a with
  | nil => intro b _; exact ⟨b, rfl⟩
  | cons x xs ih =>
    intro b h
    cases b with
    | nil => exact absurd h (by simp [isPrefixL])
    | cons y ys =>
      simp only [isPrefixL, Bool.and_eq_true, beq_iff_eq] at h
      obtain ⟨t, ht⟩ := ih ys h.2
      exact ⟨t, by simp [h.1, ht]⟩

/-- A lone % pattern matches every string. -/
theorem likeMatch_pct (s : List Char) : likeMatch [ '%' ] s = true := by
  show s.tails.any (fun suf => likeMatch [] suf) = true
  refine List.any_eq_true.2 ⟨[], ?_, rfl⟩
  exact (List.mem_tails [] s).2 (List.nil_suffix (l := s))

/-- A literal prefix followed by % matches that prefix with any suffix. -/
theorem likeMatch_self (pre : List Char) :
    ∀ rest, likeMatch (pre ++ [ '%' ]) (pre ++ rest) = true := by
  induction pre with
  | nil => intro rest; simpa using likeMatch_pct rest
  | cons p ps ih =>
    intro rest
    by_cases hp : p = '%'
    · subst hp
      show (('%' :: (ps ++ rest)).tails).any
        (fun suf => likeMatch (ps ++ [ '%' ]) suf) = true
      refine List.any_eq_true.2 ⟨ps ++ rest, ?_, ih rest⟩
      exact (List.mem_tails _ _).2 (List.suffix_cons '%' (ps ++ rest))
    · simp only [List.cons_append]
      rw [likeMatch]
      simp [hp, ih rest]

/-- A row found by the duplicate check is still found after the table grows. -/
theorem dedupBusca_append (db suf : List StoredReview) (r : Row)
    (h : dedupBusca db r = true) : dedupBusca (db ++ suf) r = true := by
  unfold dedupBusca at h ⊢
  rw [List.any_append, h]
  rfl

/-- A batch run only appends rows to the table. -/
theorem insertarAux_extends (rs : List Row) :
    ∀ db, ∃ suf, (insertarAux db rs).2.2 = db ++ suf := by
  induction rs with
  | nil => intro db; exact ⟨[], by simp [insertarAux]⟩
  | cons r rs ih =>
    intro db
    unfold insertarAux
    by_cases hd : dedupBusca db r = true
    · rw [if_pos hd]
      obtain ⟨suf, hs⟩ := ih db
      exact ⟨suf, hs⟩
    · rw [if_neg hd]
      obtain ⟨suf, hs⟩ := ih (db ++ [mkStored r])
      exact ⟨mkStored r :: suf, by simp [hs]⟩

/-- Self-match: under `filaHyp`, the row stored for a review satisfies the
review's own duplicate check. -/
theorem dedupMatch_self (r : Row) (h : filaHyp r) :
    dedupMatch r.restaurante (pyLower (pyStrip r.autor)) (dedupPatron r)
      (mkStored r) = true := by
  obtain ⟨rest, hrest⟩ := isPrefixL_append _ _ h.1
  unfold dedupMatch mkStored dedupPatron
  simp [h.2, hrest, likeMatch_self]

/-- After one run of the batch, every review of the batch is found by the
duplicate check against the resulting table. -/
theorem insertarAux_cubre (rs : List Row) :
    ∀ db, (∀ r ∈ rs, filaHyp r) →
      ∀ r ∈ rs, dedupBusca (insertarAux db rs).2.2 r = true := by
  induction rs with
  | nil => intro db _ r hr; cases hr
  | cons a rs ih =>
    intro db h r hr
    unfold insertarAux
    by_cases hd : dedupBusca db a = true
    · rw [if_pos hd]
      cases List.mem_cons.1 hr with
      | inl heq =>
        subst heq
        obtain ⟨suf, hs⟩ := insertarAux_extends rs db
        show dedupBusca (insertarAux db rs).2.2 r = true
        rw [hs]
        exact dedupBusca_append db suf r hd
      | inr hmem =>
        show dedupBusca (insertarAux db rs).2.2 r = true
        exact ih db (fun x hx => h x (List.mem_cons_of_mem a hx)) r hmem
    · rw [if_neg hd]
      cases List.mem_cons.1 hr with
      | inl heq =>
        subst heq
        obtain ⟨suf, hs⟩ := insertarAux_extends rs (db ++ [mkStored r])
        have hself : dedupBusca (db ++ [mkStored r]) r = true := by
          unfold dedupBusca
          rw [List.any_append]
          have hm := dedupMatch_self r (h r (List.mem_cons_self r rs))
          simp [hm]
        show dedupBusca (insertarAux (db ++ [mkStored r]) rs).2.2 r = true
        rw [hs]
        exact dedupBusca_append _ suf r hself
      | inr hmem =>
        show dedupBusca (insertarAux (db ++ [mkStored a]) rs).2.2 r = true
        exact ih (db ++ [mkStored a])
          (fun x hx => h x (List.mem_cons_of_mem a hx)) r hmem

/-- A run in which every review is found by the duplicate check inserts
nothing and leaves the table unchanged. -/
theorem insertarAux_todo_dup (rs : List Row) :
    ∀ db, (∀ r ∈ rs, dedupBusca db r = true) →
      insertarAux db rs = (0, rs.length, db) := by
  induction rs with
  | nil => intro db _; rfl
  | cons a rs ih =>
    intro db h
    unfold insertarAux
    rw [if_pos (h a (List.mem_cons_self a rs))]
    rw [ih db (fun r hr => h r (List.mem_cons_of_mem a hr))]
    rfl

set_option maxRecDepth 40000 in
/-- Counterexample for C3 as stated: a review whose text holds a double space
is re-inserted on the second run, because the duplicate check compares a
whitespace-normalized pattern against the raw lowered stored text. -/
theorem insertar_reviews_batch_idem_cex :
    ¬ ((insertar_reviews_batch [filaDobleEspacio]
          (insertar_reviews_batch [filaDobleEspacio] []).2.2).1 = 0 ∧
       (insertar_reviews_batch [filaDobleEspacio]
          (insertar_reviews_batch [filaDobleEspacio] []).2.2).2.2 =
         (insertar_reviews_batch [filaDobleEspacio] []).2.2) := by
  decide

/-- Claim C3 (amended): re-running a completed batch inserts zero rows,
classifies every review as a duplicate and leaves the stored table unchanged,
provided each review satisfies the round-trip hypothesis `filaHyp` (its
normalized 50-character text prefix occurs literally in the stored text and
its author trims identically under SQL and Python) — without it, texts with
internal whitespace runs break idempotence. -/
theorem insertar_reviews_batch_idem (reviews : List Row) (db : List StoredReview)
    (h : ∀ r ∈ reviews, filaHyp r) :
    insertar_reviews_batch reviews (insertar_reviews_batch reviews db).2.2 =
      (0, reviews.length, (insertar_reviews_batch reviews db).2.2) := by
  unfold insertar_reviews_batch
  exact insertarAux_todo_dup reviews _ (insertarAux_cubre reviews db h)

set_option maxRecDepth 40000 in
/-- Witness for C3 (amended): a single-spaced review round-trips. -/
theorem insertar_reviews_batch_idem_witness :
    (∀ r ∈ [filaLimpia], filaHyp r) ∧
    insertar_reviews_batch [filaLimpia]
        (insertar_reviews_batch [filaLimpia] []).2.2 =
      (0, [filaLimpia].length, (insertar_reviews_batch [filaLimpia] []).2.2) :=
  ⟨by decide, insertar_reviews_batch_idem [filaLimpia] [] (by decide)⟩

/-! ### C4: fecha_scraping advancement by visit outcome -/

/-- Counterexample for C4 as stated: with the opinions tab missing,
procesar_lugar returns SIN_PESTANA without calling upsert_lugar, so the
place's fecha_scraping is not advanced on the NO_FEEDBACK_SURFACE outcome. -/
theorem procesar_lugar_fecha_cex :
    ¬ ((procesar_lugar (fun _ => "") envSinPestana lugarEj []).upsert_llamado = true ↔
        ((procesar_lugar (fun _ => "") envSinPestana lugarEj []).estado = Estado.SIN_CAMBIOS ∨
         (procesar_lugar (fun _ => "") envSinPestana lugarEj []).estado = Estado.NUEVAS_REVIEWS ∨
         (procesar_lugar (fun _ => "") envSinPestana lugarEj []).estado = Estado.SIN_PESTANA)) := by
  decide

/-- Claim C4 (amended): procesar_lugar invokes upsert_lugar — the write that
sets the place's fecha_scraping to NOW() — exactly when the visit outcome is
SIN_CAMBIOS or NUEVAS_REVIEWS; SIN_PESTANA and ERROR leave it untouched (and
a target skipped by the run timeout is never processed at all). -/
theorem procesar_lugar_fecha (fmt : Int → String) (env : PageEnv) (lugar : Lugar)
    (ultimas : List DbRev) :
    (procesar_lugar fmt env lugar ultimas).upsert_llamado = true ↔
      ((procesar_lugar fmt env lugar ultimas).estado = Estado.SIN_CAMBIOS ∨
       (procesar_lugar fmt env lugar ultimas).estado = Estado.NUEVAS_REVIEWS) := by
  unfold procesar_lugar
  by_cases h1 : env.raises = true
  · simp [h1]
  · simp only [h1, if_false, Bool.false_eq_true]
    split
    · simp
    · split
      · simp
      · split <;> simp

/-! ### C5: run budget gates starting new targets -/

/-- A target can only complete if it started. -/
theorem runLoop_procesados_le (budget : Nat) :
    ∀ (ls : List LugarSim) (elapsed : Nat),
      (runLoop budget elapsed ls).procesados ≤ (runLoop budget elapsed ls).started := by
  intro ls
  induction ls with
  | nil => intro elapsed; exact Nat.le_refl _
  | cons l ls ih =>
    intro elapsed
    unfold runLoop
    split
    · exact Nat.le_refl _
    · dsimp only
      have := ih (elapsed + l.duration)
      split <;> omega

/-- Every target that began came up while elapsed time was under budget. -/
theorem runLoop_started_budget (budget : Nat) :
    ∀ (ls : List LugarSim) (elapsed i : Nat),
      i < (runLoop budget elapsed ls).started →
      elapsed + durTake ls i < budget := by
  intro ls
  induction ls with
  | nil => intro elapsed i h; simp [runLoop] at h
  | cons l ls ih =>
    intro elapsed i h
    unfold runLoop at h
    by_cases hb : budget ≤ elapsed
    · rw [if_pos hb] at h
      simp at h
    · rw [if_neg hb] at h
      dsimp only at h
      cases i with
      | zero =>
        have : elapsed < budget := Nat.lt_of_not_le hb
        simpa [durTake] using this
      | succ i =>
        have hi : i < (runLoop budget (elapsed + l.duration) ls).started := by omega
        have hrec := ih (elapsed + l.duration) i hi
        simp only [durTake, List.take_succ_cons, List.map_cons, List.sum_cons] at hrec ⊢
        omega

/-- Claim C5: whenever elapsed time reaches MAX_RUNTIME_SECONDS at the top of
the loop no further target begins (every started target came up strictly
under budget; the check never interrupts a target in flight), and a timed-out
run with unprocessed targets prints CONTINUE_NEEDED. -/
theorem run_monitor_presupuesto (budget : Nat) (lugares : List LugarSim) :
    (∀ i, i < (run_monitor budget lugares).1.started → durTake lugares i < budget) ∧
    ((run_monitor budget lugares).1.timed_out = true →
      (run_monitor budget lugares).1.started < lugares.length →
      (run_monitor budget lugares).2 = true) := by
  constructor
  · intro i hi
    have := runLoop_started_budget budget lugares 0 i hi
    simpa using this
  · intro ht hs
    have hp := runLoop_procesados_le budget lugares 0
    simp only [run_monitor] at ht hs ⊢
    rw [ht]
    simp only [Bool.true_and, decide_eq_true_eq]
    omega

/-- Witness for C5: budget 50 with three 25-second targets; the third never
starts and CONTINUE_NEEDED is printed. -/
theorem run_monitor_presupuesto_witness :
    (1 < (run_monitor 50 lugaresEj).1.started ∧ durTake lugaresEj 1 < 50) ∧
    ((run_monitor 50 lugaresEj).1.timed_out = true ∧
      (run_monitor 50 lugaresEj).1.started < lugaresEj.length ∧
      (run_monitor 50 lugaresEj).2 = true) :=
  ⟨⟨by decide, (run_monitor_presupuesto 50 lugaresEj).1 1 (by decide)⟩,
   ⟨by decide, by decide,
     (run_monitor_presupuesto 50 lugaresEj).2 (by decide) (by decide)⟩⟩

/-! ### C7: incremental staleness thresholds -/

/-- Claim C7: for a place with an existing summary and new reviews, reviews
whose cleaned text is not longer than 30 characters are discarded by the
`reviews_validas` filter; with fewer than 20 valid reviews only the
timestamp is advanced (the summary is passed back unchanged), and with 20 or
more the novelty verdict decides regeneration. -/
theorem incremental_step_umbral (novedad : String → List String → Bool)
    (gen_ok hay : Bool) (resumen : String) (reviews_nuevas : List String)
    (h1 : resumen ≠ "") (h2 : reviews_nuevas ≠ []) :
    ((reviews_validas reviews_nuevas).length < 20 →
      incremental_step novedad gen_ok hay (some resumen) reviews_nuevas =
        AccionIncremental.solo_timestamp) ∧
    (20 ≤ (reviews_validas reviews_nuevas).length →
      ((novedad resumen (reviews_validas reviews_nuevas) = true → gen_ok = true →
          incremental_step novedad gen_ok hay (some resumen) reviews_nuevas =
            AccionIncremental.regenerar) ∧
        (novedad resumen (reviews_validas reviews_nuevas) = false →
          incremental_step novedad gen_ok hay (some resumen) reviews_nuevas =
            AccionIncremental.solo_timestamp))) := by
  have hemp : reviews_nuevas.isEmpty = false := by
    cases reviews_nuevas with
    | nil => exact absurd rfl h2
    | cons a l => rfl
  constructor
  · intro hlt
    simp [incremental_step, h1, hemp, hlt]
  · intro hge
    constructor
    · intro hnov hgen
      simp [incremental_step, h1, hemp, Nat.not_lt.2 hge, hnov, hgen]
    · intro hnov
      simp [incremental_step, h1, hemp, Nat.not_lt.2 hge, hnov]

/-- Witness for C7: one short review is filtered out, so only the timestamp
advances. -/
theorem incremental_step_umbral_witness :
    ("resumen existente" : String) ≠ "" ∧ (["corta"] : List String) ≠ [] ∧
    (reviews_validas ["corta"]).length < 20 ∧
    incremental_step (fun _ _ => true) true true (some "resumen existente") ["corta"] =
      AccionIncremental.solo_timestamp :=
  ⟨by decide, by decide, by decide,
    (incremental_step_umbral (fun _ _ => true) true true "resumen existente" ["corta"]
      (by decide) (by decide)).1 (by decide)⟩

/-! ### C9: per-target error isolation -/

/-- How far the loop gets depends only on target durations, never on whether
individual targets raise. -/
theorem runLoop_solo_duraciones (budget : Nat) :
    ∀ (l1 l2 : List LugarSim) (elapsed : Nat),
      l1.map LugarSim.duration = l2.map LugarSim.duration →
      (runLoop budget elapsed l1).started = (runLoop budget elapsed l2).started ∧
      (runLoop budget elapsed l1).timed_out = (runLoop budget elapsed l2).timed_out := by
  intro l1
  induction l1 with
  | nil =>
    intro l2 elapsed h
    cases l2 with
    | nil => exact ⟨rfl, rfl⟩
    | cons b bs => simp at h
  | cons a as ih =>
    intro l2 elapsed h
    cases l2 with
    | nil => simp at h
    | cons b bs =>
      simp only [List.map_cons, List.cons.injEq] at h
      unfold runLoop
      by_cases hb : budget ≤ elapsed
      · rw [if_pos hb, if_pos hb]
        exact ⟨rfl, rfl⟩
      · rw [if_neg hb, if_neg hb]
        have hd : a.duration = b.duration := h.1
        rw [hd]
        have hrec := ih bs (elapsed + b.duration) h.2
        dsimp only
        exact ⟨by rw [hrec.1], hrec.2⟩

/-- Claim C9: an exception inside procesar_lugar is mapped to the ERROR
outcome, and the run loop advances through exactly the same targets whether
or not individual targets raise — errors never abort the run for the
remaining targets. -/
theorem aislamiento_errores (budget : Nat) (l1 l2 : List LugarSim)
    (h : l1.map LugarSim.duration = l2.map LugarSim.duration)
    (fmt : Int → String) (env : PageEnv) (lugar : Lugar) (ultimas : List DbRev)
    (hr : env.raises = true) :
    (procesar_lugar fmt env lugar ultimas).estado = Estado.ERROR ∧
    (runLoop budget 0 l1).started = (runLoop budget 0 l2).started ∧
    (runLoop budget 0 l1).timed_out = (runLoop budget 0 l2).timed_out := by
  refine ⟨?_, runLoop_solo_duraciones budget l1 l2 0 h⟩
  simp [procesar_lugar, hr]

/-- Witness for C9: a raising first target does not change how far the loop
gets compared to a healthy run with the same durations. -/
theorem aislamiento_errores_witness :
    (lugaresConError.map LugarSim.duration = lugaresSanos.map LugarSim.duration ∧
      envConError.raises = true) ∧
    ((procesar_lugar (fun _ => "") envConError lugarEj []).estado = Estado.ERROR ∧
      (runLoop 100 0 lugaresConError).started = (runLoop 100 0 lugaresSanos).started ∧
      (runLoop 100 0 lugaresConError).timed_out = (runLoop 100 0 lugaresSanos).timed_out) :=
  ⟨⟨by decide, by decide⟩,
    aislamiento_errores 100 lugaresConError lugaresSanos (by decide) (fun _ => "")
      envConError lugarEj [] (by decide)⟩

end QueMorfamos
